import Mathlib

/-!
Verification development for the web2apk-backend build orchestration engine.

The JavaScript sources are shallowly embedded: strings are lists of
characters, the `String.prototype.replace` calls of `buildService.js` are
modelled by explicit first-occurrence scanners together with the
JavaScript replacement-pattern expansion (`$$`, `$&`, the backquote and
quote forms), the Mongoose `Build` model methods are functions on a
record structure, and the Bull queue configuration of `config/queue.js`
is modelled by its documented rate-limiter and retry semantics.
-/

set_option maxRecDepth 40000

namespace Web2APK

/-- Strings are modelled as lists of characters. -/
abbrev Str := List Char

/-- Conversion from Lean string literals to the character-list model. -/
def str (s : String) : Str := s.data

/-- The apostrophe character (code 39). -/
def aposChar : Char := Char.ofNat 39

/-- The backquote character (code 96). -/
def backquoteChar : Char := Char.ofNat 96

/-- JS replacement-pattern expansion: in the replacement string of
`String.prototype.replace`, `$$` stands for a dollar sign, `$&` for the
matched text, a dollar followed by a backquote for the part before the
match, and a dollar followed by an apostrophe for the part after the
match; any other text is copied verbatim. -/
def expandRepl (pre mtch suf : Str) : Str → Str
  | [] => []
  | [c] => [c]
  | c :: d :: rest2 =>
    if c = '$' then
      if d = '$' then '$' :: expandRepl pre mtch suf rest2
      else if d = '&' then mtch ++ expandRepl pre mtch suf rest2
      else if d = backquoteChar then pre ++ expandRepl pre mtch suf rest2
      else if d = aposChar then suf ++ expandRepl pre mtch suf rest2
      else c :: d :: expandRepl pre mtch suf rest2
    else c :: expandRepl pre mtch suf (d :: rest2)

/-- Worker for `splitFirst`, carrying the reversed prefix scanned so far
(the accumulator keeps evaluation iterative). -/
def splitFirstAux (pat : Str) (acc : Str) : Str → Option (Str × Str)
  | [] => if pat.isPrefixOf ([] : Str) then some (acc.reverse, []) else none
  | c :: rest =>
    if pat.isPrefixOf (c :: rest) then some (acc.reverse, List.drop pat.length (c :: rest))
    else splitFirstAux pat (c :: acc) rest

/-- Splits a string at the first occurrence of `pat`, returning the part
before and the part after the occurrence. -/
def splitFirst (pat s : Str) : Option (Str × Str) := splitFirstAux pat [] s

/-- Splits a string at the last occurrence of `pat`. -/
def splitLast (pat s : Str) : Option (Str × Str) :=
  (splitFirst pat.reverse s.reverse).map (fun pr => (pr.2.reverse, pr.1.reverse))

/-- JS `s.replace(lit, repl)` with a plain string pattern: replaces the
first occurrence of `lit`, applying replacement-pattern expansion. -/
def replaceFirstLit (lit repl s : Str) : Str :=
  match splitFirst lit s with
  | none => s
  | some (pre, suf) => pre ++ expandRepl pre lit suf repl ++ suf

/-- JS `s.replace(/lit[^"]*"/, repl)` (as in the `package="[^"]*"` patch):
the match starts at the first occurrence of `lit` and extends over the
quote-free value up to and including the next double quote. -/
def replaceAttrQuoted (lit repl s : Str) : Str :=
  match splitFirst lit s with
  | none => s
  | some (pre, rest) =>
    let v := rest.takeWhile (fun c => c ≠ '"')
    match rest.dropWhile (fun c => c ≠ '"') with
    | [] => s
    | _ :: suf => pre ++ expandRepl pre (lit ++ v ++ ['"']) suf repl ++ suf

/-- Scanner for JS `s.replace(/lit.*close/, repl)`: searches left to right
for a position where `lit` matches and the rest of that line still
contains `close`; the greedy `.*` makes the match extend to the last
occurrence of `close` on the line. Returns the part before the match, the
text matched by `.*`, and the part after the match. -/
def findSpan (lit close : Str) : Str → Option (Str × Str × Str)
  | [] => none
  | c :: rest0 =>
    if lit.isPrefixOf (c :: rest0) then
      let rest := List.drop lit.length (c :: rest0)
      let line := rest.takeWhile (fun x => x ≠ '\n')
      let after := rest.dropWhile (fun x => x ≠ '\n')
      match splitLast close line with
      | some (mid, tl) => some ([], mid, tl ++ after)
      | none => (findSpan lit close rest0).map (fun pr => (c :: pr.1, pr.2.1, pr.2.2))
    else (findSpan lit close rest0).map (fun pr => (c :: pr.1, pr.2.1, pr.2.2))

/-- JS `s.replace(/lit.*close/, repl)` built on `findSpan`. -/
def replaceSpanGreedy (lit close repl s : Str) : Str :=
  match findSpan lit close s with
  | none => s
  | some (pre, mid, suf) => pre ++ expandRepl pre (lit ++ mid ++ close) suf repl ++ suf

/-- JS `\w` word characters: ASCII letters, digits and underscore. -/
def isWordChar (c : Char) : Bool := c.isAlphanum || c = '_'

/-- Scanner for JS `s.replace(/lit\w+/, repl)`: searches left to right for
a position where `lit` matches and is followed by at least one word
character; the match extends over the maximal word-character run. -/
def findWordRun (lit : Str) : Str → Option (Str × Str × Str)
  | [] => none
  | c :: rest0 =>
    if lit.isPrefixOf (c :: rest0) then
      let rest := List.drop lit.length (c :: rest0)
      let run := rest.takeWhile isWordChar
      if run = [] then (findWordRun lit rest0).map (fun pr => (c :: pr.1, pr.2.1, pr.2.2))
      else some ([], run, rest.dropWhile isWordChar)
    else (findWordRun lit rest0).map (fun pr => (c :: pr.1, pr.2.1, pr.2.2))

/-- JS `s.replace(/lit\w+/, repl)` built on `findWordRun`. -/
def replaceWordRun (lit repl s : Str) : Str :=
  match findWordRun lit s with
  | none => s
  | some (pre, run, suf) => pre ++ expandRepl pre (lit ++ run) suf repl ++ suf

/-- JS `s.replace(/^package .+/, repl)`: the anchored pattern matches only
at the start of the string and extends over the non-empty remainder of
the first line. -/
def replaceHeadLine (repl s : Str) : Str :=
  if (str "package ").isPrefixOf s then
    let rest := List.drop 8 s
    let line := rest.takeWhile (fun x => x ≠ '\n')
    let after := rest.dropWhile (fun x => x ≠ '\n')
    if line = [] then s
    else expandRepl [] (str "package " ++ line) after repl ++ after
  else s

/-- JS `s.replace(/c/g, rep)` for a single-character pattern: every
occurrence of the character `c` is replaced by `rep`. -/
def replaceAllChar (c : Char) (rep : Str) : Str → Str
  | [] => []
  | x :: rest => (if x = c then rep else [x]) ++ replaceAllChar c rep rest

/-- Number of positions of `s` at which `pat` occurs as a substring. -/
def countOcc (pat : Str) : Str → Nat
  | [] => 0
  | c :: rest => (if pat.isPrefixOf (c :: rest) then 1 else 0) + countOcc pat rest

/-- Occurrence of `pat` as a contiguous substring of `s`. -/
def occurs (pat s : Str) : Prop := ∃ p t, s = p ++ pat ++ t

/-- Concatenation of the images of the characters of a string. -/
def mapConcat (f : Char → Str) : Str → Str
  | [] => []
  | c :: rest => f c ++ mapConcat f rest

/-! ## Lemmas about the string primitives -/

theorem splitFirstAux_append (pat : Str) :
    ∀ (s acc : Str), splitFirstAux pat acc s
      = (splitFirstAux pat [] s).map (fun pr => (acc.reverse ++ pr.1, pr.2)) := by
  intro s
  induction s with
  | nil =>
    intro acc
    simp only [splitFirstAux]
    split
    · simp
    · simp
  | cons c rest ih =>
    intro acc
    simp only [splitFirstAux]
    split
    · simp
    · rw [ih (c :: acc), ih [c]]
      cases splitFirstAux pat [] rest with
      | none => simp
      | some pr => simp [List.append_assoc]

theorem splitFirst_nil (pat : Str) :
    splitFirst pat [] = if pat.isPrefixOf ([] : Str) then some ([], []) else none := rfl

theorem splitFirst_cons (pat : Str) (c : Char) (rest : Str) :
    splitFirst pat (c :: rest)
      = if pat.isPrefixOf (c :: rest) then some ([], List.drop pat.length (c :: rest))
        else (splitFirst pat rest).map (fun pr => (c :: pr.1, pr.2)) := by
  show splitFirstAux pat [] (c :: rest) = _
  simp only [splitFirstAux]
  split
  · simp
  · rw [splitFirstAux_append]
    rfl

theorem isPrefixOf_iff_exists {l : Str} : ∀ {s : Str}, l.isPrefixOf s = true ↔ ∃ t, s = l ++ t := by
  induction l with
  | nil => intro s; simp [List.isPrefixOf]
  | cons a as ih =>
    intro s
    cases s with
    | nil => simp [List.isPrefixOf]
    | cons b bs =>
      simp only [List.isPrefixOf, Bool.and_eq_true, beq_iff_eq, ih, List.cons_append]
      constructor
      · rintro ⟨rfl, t, rfl⟩; exact ⟨t, rfl⟩
      · rintro ⟨t, h⟩
        injection h with h1 h2
        exact ⟨h1.symm, t, h2⟩

theorem splitFirst_sound {pat : Str} : ∀ {s p t : Str}, splitFirst pat s = some (p, t) → s = p ++ pat ++ t := by
  intro s
  induction s with
  | nil =>
    intro p t h
    rw [splitFirst_nil] at h
    split at h
    · rename_i hp
      obtain ⟨u, hu⟩ := isPrefixOf_iff_exists.mp hp
      injection h with h'
      injection h' with h1 h2
      subst h1; subst h2
      have h0 : pat = [] ∧ u = [] := by simpa using hu
      simp [h0.1]
    · exact absurd h (by simp)
  | cons c rest ih =>
    intro p t h
    rw [splitFirst_cons] at h
    split at h
    · rename_i hp
      obtain ⟨u, hu⟩ := isPrefixOf_iff_exists.mp hp
      injection h with h'
      injection h' with h1 h2
      subst h1
      subst h2
      rw [hu, List.drop_left, List.nil_append]
    · cases hsp : splitFirst pat rest with
      | none => rw [hsp] at h; simp at h
      | some pr =>
        rw [hsp] at h
        simp only [Option.map_some'] at h
        injection h with h'
        injection h' with h1 h2
        obtain ⟨p1, p2⟩ := pr
        subst h1; subst h2
        simpa using ih hsp

theorem splitFirst_isSome_iff {pat : Str} : ∀ {s : Str}, (splitFirst pat s).isSome = true ↔ occurs pat s := by
  intro s
  induction s with
  | nil =>
    constructor
    · intro h
      cases hsp : splitFirst pat [] with
      | none => rw [hsp] at h; simp at h
      | some pr =>
        obtain ⟨p1, p2⟩ := pr
        exact ⟨p1, p2, splitFirst_sound hsp⟩
    · rintro ⟨p, t, h⟩
      have hp : pat.isPrefixOf ([] : Str) = true := by
        have hpat : pat = [] := by
          cases p <;> cases pat <;> simp_all
        rw [hpat]
        simp [List.isPrefixOf]
      rw [splitFirst_nil, if_pos hp]
      rfl
  | cons c rest ih =>
    constructor
    · intro h
      cases hsp : splitFirst pat (c :: rest) with
      | none => rw [hsp] at h; simp at h
      | some pr =>
        obtain ⟨p1, p2⟩ := pr
        exact ⟨p1, p2, splitFirst_sound hsp⟩
    · rintro ⟨p, t, h⟩
      rw [splitFirst_cons]
      split
      · simp
      · rename_i hp
        cases p with
        | nil =>
          exact absurd (isPrefixOf_iff_exists.mpr ⟨t, by simpa using h⟩) (by simp [hp])
        | cons a p' =>
          injection h with h1 h2
          have : (splitFirst pat rest).isSome = true := ih.mpr ⟨p', t, h2⟩
          cases hsp : splitFirst pat rest with
          | none => rw [hsp] at this; simp at this
          | some pr => simp

theorem splitFirst_eq_none_iff {pat s : Str} : splitFirst pat s = none ↔ ¬ occurs pat s := by
  rw [← splitFirst_isSome_iff]
  cases splitFirst pat s <;> simp

theorem splitLast_sound {pat s p t : Str} (h : splitLast pat s = some (p, t)) : s = p ++ pat ++ t := by
  unfold splitLast at h
  cases hsp : splitFirst pat.reverse s.reverse with
  | none => rw [hsp] at h; simp at h
  | some pr =>
    obtain ⟨p1, p2⟩ := pr
    rw [hsp] at h
    simp only [Option.map_some'] at h
    injection h with h'
    injection h' with h1 h2
    subst h1; subst h2
    have hs := splitFirst_sound hsp
    have : s.reverse.reverse = (p1 ++ pat.reverse ++ p2).reverse := by rw [← hs]
    simpa [List.reverse_append, List.append_assoc] using this

theorem append_eq_sep {c : Char} {pat : Str} (hc : c ∉ pat) :
    ∀ {t u v : Str}, pat ++ t = u ++ c :: v → ∃ w, u = pat ++ w ∧ t = w ++ c :: v := by
  induction pat with
  | nil => intro t u v h; exact ⟨u, rfl, h⟩
  | cons d pat' ih =>
    intro t u v h
    cases u with
    | nil =>
      simp only [List.cons_append, List.nil_append] at h
      injection h with h1 h2
      exact absurd (h1 ▸ List.mem_cons_self d pat') hc
    | cons e u' =>
      simp only [List.cons_append] at h
      injection h with h1 h2
      obtain ⟨w, hw1, hw2⟩ := ih (fun hm => hc (List.mem_cons_of_mem _ hm)) h2
      exact ⟨w, by rw [hw1, h1, List.cons_append], hw2⟩

theorem isPrefixOf_append_sep {c : Char} {pat u v : Str} (hc : c ∉ pat) :
    pat.isPrefixOf (u ++ c :: v) = pat.isPrefixOf u := by
  cases h1 : pat.isPrefixOf u with
  | true =>
    obtain ⟨w, hw⟩ := isPrefixOf_iff_exists.mp h1
    exact isPrefixOf_iff_exists.mpr ⟨w ++ c :: v, by rw [hw, List.append_assoc]⟩
  | false =>
    cases h2 : pat.isPrefixOf (u ++ c :: v) with
    | true =>
      obtain ⟨w, hw⟩ := isPrefixOf_iff_exists.mp h2
      obtain ⟨w', hw1, _⟩ := append_eq_sep hc hw.symm
      rw [isPrefixOf_iff_exists.mpr ⟨w', hw1⟩] at h1
      exact h1
    | false => rfl

theorem countOcc_append_sep {c : Char} {pat : Str} (hne : pat ≠ []) (hc : c ∉ pat) :
    ∀ {u v : Str}, countOcc pat (u ++ c :: v) = countOcc pat u + countOcc pat v := by
  intro u v
  induction u with
  | nil =>
    simp only [List.nil_append, countOcc]
    have hp : pat.isPrefixOf (c :: v) = false := by
      cases hp : pat.isPrefixOf (c :: v) with
      | true =>
        obtain ⟨w, hw⟩ := isPrefixOf_iff_exists.mp hp
        cases pat with
        | nil => exact absurd rfl hne
        | cons d pat' =>
          simp only [List.cons_append] at hw
          injection hw with h1 _
          exact absurd (h1 ▸ List.mem_cons_self d pat') hc
      | false => rfl
    simp [hp]
  | cons a u' ih =>
    have e1 : (a :: u') ++ c :: v = a :: (u' ++ c :: v) := rfl
    rw [e1]
    simp only [countOcc]
    rw [ih]
    have e2 : pat.isPrefixOf (a :: (u' ++ c :: v)) = pat.isPrefixOf (a :: u') := by
      have e3 : a :: (u' ++ c :: v) = (a :: u') ++ c :: v := rfl
      rw [e3, isPrefixOf_append_sep hc]
    rw [e2]
    omega

theorem countOcc_pos_iff {pat : Str} (hne : pat ≠ []) :
    ∀ {s : Str}, 0 < countOcc pat s ↔ occurs pat s := by
  intro s
  induction s with
  | nil =>
    simp only [countOcc]
    constructor
    · intro h; exact absurd h (Nat.lt_irrefl 0)
    · rintro ⟨p, t, h⟩
      have hpat : pat = [] := by
        have h' := h.symm
        rw [List.append_assoc] at h'
        exact (List.append_eq_nil.mp (List.append_eq_nil.mp h').2).1
      exact absurd hpat hne
  | cons a rest ih =>
    simp only [countOcc]
    constructor
    · intro h
      by_cases hp : pat.isPrefixOf (a :: rest) = true
      · obtain ⟨w, hw⟩ := isPrefixOf_iff_exists.mp hp
        exact ⟨[], w, by simpa using hw⟩
      · rw [Bool.not_eq_true] at hp
        simp only [hp] at h
        simp only [Bool.false_eq_true, if_false, Nat.zero_add] at h
        obtain ⟨p, t, heq⟩ := ih.mp h
        exact ⟨a :: p, t, by rw [List.cons_append, List.cons_append, ← heq]⟩
    · rintro ⟨p, t, h⟩
      cases p with
      | nil =>
        have hp : pat.isPrefixOf (a :: rest) = true :=
          isPrefixOf_iff_exists.mpr ⟨t, by simpa using h⟩
        simp [hp]
      | cons b p' =>
        injection h with h1 h2
        have hpos := ih.mpr ⟨p', t, h2⟩
        exact Nat.lt_of_lt_of_le hpos (Nat.le_add_left _ _)

theorem occurs_append_sep {c : Char} {pat u v : Str} (hc : c ∉ pat)
    (h : occurs pat (u ++ c :: v)) : occurs pat u ∨ occurs pat v := by
  by_cases hne : pat = []
  · subst hne
    exact Or.inl ⟨[], u, rfl⟩
  · have h1 : 0 < countOcc pat (u ++ c :: v) := (countOcc_pos_iff hne).mpr h
    rw [countOcc_append_sep hne hc] at h1
    rcases Nat.lt_or_ge 0 (countOcc pat u) with hu | hu
    · exact Or.inl ((countOcc_pos_iff hne).mp hu)
    · have : 0 < countOcc pat v := by omega
      exact Or.inr ((countOcc_pos_iff hne).mp this)

theorem occurs_of_occurs_left {pat u v : Str} (h : occurs pat u) : occurs pat (u ++ v) := by
  obtain ⟨p, t, rfl⟩ := h
  exact ⟨p, t ++ v, by simp [List.append_assoc]⟩

theorem occurs_of_occurs_right {pat u v : Str} (h : occurs pat v) : occurs pat (u ++ v) := by
  obtain ⟨p, t, rfl⟩ := h
  exact ⟨u ++ p, t, by simp [List.append_assoc]⟩

theorem mem_of_occurs {pat s : Str} (h : occurs pat s) {c : Char} (hc : c ∈ pat) : c ∈ s := by
  obtain ⟨p, t, rfl⟩ := h
  exact List.mem_append.mpr (Or.inl (List.mem_append.mpr (Or.inr hc)))

theorem expandRepl_eq_of_no_dollar {pre m suf : Str} :
    ∀ {repl : Str}, '$' ∉ repl → expandRepl pre m suf repl = repl := by
  intro repl
  induction repl with
  | nil => intro _; rfl
  | cons c rest ih =>
    intro h
    have hc : ¬ c = '$' := fun hh => h (hh ▸ List.mem_cons_self c rest)
    have hr : '$' ∉ rest := fun hh => h (List.mem_cons_of_mem _ hh)
    cases rest with
    | nil => simp [expandRepl]
    | cons d rest2 => simp [expandRepl, hc, ih hr]

theorem takeWhile_append_cons {q : Char → Bool} {c : Char} (hc : q c = false) :
    ∀ {v b : Str}, (∀ a ∈ v, q a = true) → (v ++ c :: b).takeWhile q = v := by
  intro v
  induction v with
  | nil =>
    intro b _
    simp only [List.nil_append, List.takeWhile_cons, hc, Bool.false_eq_true, if_false]
  | cons a v' ih =>
    intro b hv
    have ha : q a = true := hv a (List.mem_cons_self a v')
    simp only [List.cons_append, List.takeWhile_cons, ha, if_true]
    rw [ih (fun x hx => hv x (List.mem_cons_of_mem _ hx))]

theorem dropWhile_append_cons {q : Char → Bool} {c : Char} (hc : q c = false) :
    ∀ {v b : Str}, (∀ a ∈ v, q a = true) → (v ++ c :: b).dropWhile q = c :: b := by
  intro v
  induction v with
  | nil =>
    intro b _
    simp only [List.nil_append, List.dropWhile_cons, hc, Bool.false_eq_true, if_false]
  | cons a v' ih =>
    intro b hv
    have ha : q a = true := hv a (List.mem_cons_self a v')
    simp only [List.cons_append, List.dropWhile_cons, ha, if_true]
    exact ih (fun x hx => hv x (List.mem_cons_of_mem _ hx))

theorem mapConcat_append (f : Char → Str) :
    ∀ (u v : Str), mapConcat f (u ++ v) = mapConcat f u ++ mapConcat f v := by
  intro u v
  induction u with
  | nil => rfl
  | cons c u' ih => simp [mapConcat, ih, List.append_assoc]

theorem mem_mapConcat {f : Char → Str} {c : Char} :
    ∀ {s : Str}, c ∈ mapConcat f s → ∃ x ∈ s, c ∈ f x := by
  intro s
  induction s with
  | nil => intro h; exact absurd h (by simp [mapConcat])
  | cons a rest ih =>
    intro h
    rcases List.mem_append.mp h with h1 | h2
    · exact ⟨a, List.mem_cons_self a rest, h1⟩
    · obtain ⟨x, hx, hcx⟩ := ih h2
      exact ⟨x, List.mem_cons_of_mem _ hx, hcx⟩

theorem replaceAllChar_eq_mapConcat (c : Char) (rep : Str) :
    ∀ (s : Str), replaceAllChar c rep s = mapConcat (fun x => if x = c then rep else [x]) s := by
  intro s
  induction s with
  | nil => rfl
  | cons a rest ih => simp [replaceAllChar, mapConcat, ih]

theorem mapConcat_mapConcat (f g : Char → Str) :
    ∀ (s : Str), mapConcat f (mapConcat g s) = mapConcat (fun x => mapConcat f (g x)) s := by
  intro s
  induction s with
  | nil => rfl
  | cons a rest ih => simp [mapConcat, mapConcat_append, ih]

/-! ## Feature flags and app configuration

From the `features` sub-document of the `Build` schema in the Mongoose
model: eight boolean flags with the given defaults. -/

structure Features where
  pullToRefresh : Bool := true
  progressBar : Bool := true
  errorPage : Bool := true
  fileUpload : Bool := false
  deepLinking : Bool := false
  swipeRefresh : Bool := true
  geolocation : Bool := false
  localStorage : Bool := true
deriving DecidableEq, Repr

/-- JS stringification of a boolean, as produced by a template literal
such as `ENABLE_PULL_TO_REFRESH = ${features.pullToRefresh}`. -/
def jsBool (b : Bool) : Str := if b then str "true" else str "false"

/-! ## buildService.js : updateAndroidManifest -/

/-- Permissions accumulated by `updateAndroidManifest` in
`buildService.js`: INTERNET and ACCESS_NETWORK_STATE always, the storage
pair when `features.fileUpload` holds, the location pair when
`features.geolocation` holds. -/
def permissionsBlock (fileUpload geolocation : Bool) : Str :=
  str "\n    <uses-permission android:name=\"android.permission.INTERNET\" />\n    <uses-permission android:name=\"android.permission.ACCESS_NETWORK_STATE\" />"
  ++ (if fileUpload then
        str "\n    <uses-permission android:name=\"android.permission.READ_EXTERNAL_STORAGE\" />\n    <uses-permission android:name=\"android.permission.WRITE_EXTERNAL_STORAGE\" android:maxSdkVersion=\"28\" />"
      else [])
  ++ (if geolocation then
        str "\n    <uses-permission android:name=\"android.permission.ACCESS_FINE_LOCATION\" />\n    <uses-permission android:name=\"android.permission.ACCESS_COARSE_LOCATION\" />"
      else [])

/-- The `updateAndroidManifest` transformation of `buildService.js`:
replaces the first `package="..."` attribute value with the configured
package name, then inserts the permission block before the first
occurrence of `<application`. -/
def updateAndroidManifest (manifest packageName : Str) (features : Features) : Str :=
  let m1 := replaceAttrQuoted (str "package=\"")
    (str "package=\"" ++ packageName ++ str "\"") manifest
  replaceFirstLit (str "<application")
    (permissionsBlock features.fileUpload features.geolocation ++ str "\n\n    <application") m1

/-! ## buildService.js : escapeXml and updateStringsXml -/

/-- The `escapeXml` helper of `buildService.js`: five sequential global
single-character replacements, ampersand first. -/
def escapeXml (s : Str) : Str :=
  replaceAllChar aposChar (str "&apos;")
    (replaceAllChar '"' (str "&quot;")
      (replaceAllChar '>' (str "&gt;")
        (replaceAllChar '<' (str "&lt;")
          (replaceAllChar '&' (str "&amp;") s))))

/-- Single-pass XML escaping of one character, as the specification
describes it: each of the five characters maps to its entity, anything
else is kept. Used to compare `escapeXml` against the specification. -/
def xmlEscapeChar (c : Char) : Str :=
  if c = '&' then str "&amp;"
  else if c = '<' then str "&lt;"
  else if c = '>' then str "&gt;"
  else if c = '"' then str "&quot;"
  else if c = aposChar then str "&apos;"
  else [c]

/-- The `updateStringsXml` transformation of `buildService.js`: replaces
the `app_name` string resource line content by the escaped app name. -/
def updateStringsXml (strings appName : Str) : Str :=
  replaceSpanGreedy (str "<string name=\"app_name\">") (str "</string>")
    (str "<string name=\"app_name\">" ++ escapeXml appName ++ str "</string>") strings

/-! ## buildService.js : updateMainActivity -/

/-- The watermark snippet of `updateMainActivity` in `buildService.js`,
inserted for non-premium builds at the `// WATERMARK_PLACEHOLDER`
comment. -/
def watermarkCode : Str :=
  str "\n        // Free version watermark\n        webView.evaluateJavascript(\"\"\"\n            (function() \x7b\n                const watermark = document.createElement('div');\n                watermark.innerHTML = 'Created with Web2APK';\n                watermark.style.cssText = 'position:fixed;bottom:10px;right:10px;background:rgba(0,0,0,0.7);color:white;padding:5px 10px;border-radius:5px;font-size:12px;z-index:999999;';\n                document.body.appendChild(watermark);\n            \x7d)();\n        \"\"\", null);\n"

/-- Placeholder comment searched for by the watermark injection. -/
def watermarkMarker : Str := str "// WATERMARK_PLACEHOLDER"

/-- The five feature-flag assignment patterns replaced by
`updateMainActivity` (patterns of the form `ENABLE_X = \w+`). -/
def activityFlagPatterns : List Str :=
  [str "ENABLE_PULL_TO_REFRESH = ", str "ENABLE_PROGRESS_BAR = ",
   str "ENABLE_ERROR_PAGE = ", str "ENABLE_FILE_UPLOAD = ",
   str "ENABLE_DEEP_LINKING = "]

/-- The `updateMainActivity` transformation of `buildService.js`: rewrites
the `package` header line, the `WEBSITE_URL` constant, the five feature
flag constants, and for non-premium builds substitutes the watermark
snippet for the placeholder comment. -/
def updateMainActivity (activity packageName websiteUrl : Str)
    (features : Features) (isPremium : Bool) : Str :=
  let a1 := replaceHeadLine (str "package " ++ packageName) activity
  let a2 := replaceSpanGreedy (str "WEBSITE_URL = \"") (str "\"")
    (str "WEBSITE_URL = \"" ++ websiteUrl ++ str "\"") a1
  let a3 := replaceWordRun (str "ENABLE_PULL_TO_REFRESH = ")
    (str "ENABLE_PULL_TO_REFRESH = " ++ jsBool features.pullToRefresh) a2
  let a4 := replaceWordRun (str "ENABLE_PROGRESS_BAR = ")
    (str "ENABLE_PROGRESS_BAR = " ++ jsBool features.progressBar) a3
  let a5 := replaceWordRun (str "ENABLE_ERROR_PAGE = ")
    (str "ENABLE_ERROR_PAGE = " ++ jsBool features.errorPage) a4
  let a6 := replaceWordRun (str "ENABLE_FILE_UPLOAD = ")
    (str "ENABLE_FILE_UPLOAD = " ++ jsBool features.fileUpload) a5
  let a7 := replaceWordRun (str "ENABLE_DEEP_LINKING = ")
    (str "ENABLE_DEEP_LINKING = " ++ jsBool features.deepLinking) a6
  if isPremium then a7 else replaceFirstLit watermarkMarker watermarkCode a7

/-! ## buildService.js : signAPK -/

/-- Keystore environment variables consumed by `signAPK`:
`KEYSTORE_PATH`, `KEYSTORE_PASSWORD`, `KEY_ALIAS`, `KEY_PASSWORD`; each
is absent or a string. -/
structure KeystoreEnv where
  keystorePath : Option String
  keystorePassword : Option String
  keyAlias : Option String
  keyPassword : Option String
deriving DecidableEq

/-- JS truthiness of an optional environment string: `undefined` and the
empty string are falsy. -/
def truthy : Option String → Bool
  | none => false
  | some s => s ≠ ""

/-- Guard of `signAPK`: all four keystore settings must be truthy. -/
def keystoreConfigured (e : KeystoreEnv) : Bool :=
  truthy e.keystorePath && truthy e.keystorePassword &&
    truthy e.keyAlias && truthy e.keyPassword

/-- The `signAPK` function of `buildService.js`. When the keystore is not
fully configured it returns the unsigned artifact path; otherwise it runs
the external `apksigner` (whose outcome is passed in, since it is an
opaque subprocess) and returns the signed path on success, falling back
to the unsigned path when the subprocess raises — the `catch` block
swallows the error. The function never propagates a failure. -/
def signAPK (e : KeystoreEnv) (apksignerRun : Except String Unit)
    (unsignedApkPath signedApkPath : String) : String :=
  if keystoreConfigured e = false then unsignedApkPath
  else
    match apksignerRun with
    | Except.ok _ => signedApkPath
    | Except.error _ => unsignedApkPath

/-- Signed artifact location used by `signAPK`:
`path.join(TEMP_DIR, buildId + "-signed.apk")`. -/
def signedPathOf (tempDir buildId : String) : String :=
  tempDir ++ "/" ++ buildId ++ "-signed.apk"

/-! ## Build model (Mongoose `Build` schema methods) and cancel endpoint -/

/-- Build lifecycle states of the `Build` schema `status` enum. -/
inductive BuildStatus
  | pending
  | queued
  | building
  | completed
  | failed
  | cancelled
deriving DecidableEq, Repr

/-- Projection of the persistent `Build` document: the fields mutated by
the worker, the model methods and the cancel endpoint. -/
structure BuildRecord where
  status : BuildStatus
  progress : Nat
  currentStep : String
  apkPath : Option String := none
  apkSize : Option Nat := none
  downloadUrl : Option String := none
  errorMessage : Option String := none
deriving DecidableEq, Repr

/-- The `updateProgress` method of the `Build` model: stores the given
progress and step unconditionally. -/
def updateProgress (b : BuildRecord) (progress : Nat) (step : String) : BuildRecord :=
  { b with progress := progress, currentStep := step }

/-- The `markCompleted` method of the `Build` model: sets the status to
`completed` and the progress to 100 and stores the outputs, without
examining the current status. -/
def markCompleted (b : BuildRecord) (apkPath : String) (apkSize : Nat)
    (downloadUrl : String) : BuildRecord :=
  { b with
    status := BuildStatus.completed
    progress := 100
    currentStep := "Build completed successfully"
    apkPath := some apkPath
    apkSize := some apkSize
    downloadUrl := some downloadUrl }

/-- The `markFailed` method of the `Build` model: sets the status to
`failed` and stores the error message, without examining the current
status. -/
def markFailed (b : BuildRecord) (errMessage : String) : BuildRecord :=
  { b with status := BuildStatus.failed, errorMessage := some errMessage }

/-- Statuses from which the cancel endpoint of `buildController.js`
accepts a cancellation. -/
def cancelAllowed (s : BuildStatus) : Bool :=
  s = BuildStatus.pending || s = BuildStatus.queued || s = BuildStatus.building

/-- The cancel endpoint of `buildController.js`: when the build is in
`pending`, `queued` or `building` it sets the status to `cancelled`;
otherwise the record is left unchanged (the request is rejected). -/
def cancelBuild (b : BuildRecord) : BuildRecord :=
  if cancelAllowed b.status then
    { b with status := BuildStatus.cancelled, currentStep := "Build cancelled by user" }
  else b

/-! ## Queue configuration (config/queue.js) and Bull semantics

The Bull queue itself is an external library; its retry and rate-limiter
behaviour is modelled from its documented semantics, instantiated with
the configuration object of `config/queue.js`. -/

/-- JS `parseInt(env) || d`: an absent (or non-numeric) value and the
falsy parse result 0 both fall back to the default. -/
def jsParseIntOr (v : Option Nat) (d : Nat) : Nat :=
  match v with
  | none => d
  | some n => if n = 0 then d else n

/-- `limiter.max` of `config/queue.js`:
`parseInt(process.env.MAX_CONCURRENT_BUILDS) || 3`. -/
def maxConcurrentBuilds (env : Option Nat) : Nat := jsParseIntOr env 3

/-- `limiter.duration` of `config/queue.js`: 1000 milliseconds. -/
def limiterDuration : Nat := 1000

/-- `attempts` of `config/queue.js`:
`parseInt(process.env.BUILD_QUEUE_ATTEMPTS) || 2`. -/
def buildQueueAttempts (env : Option Nat) : Nat := jsParseIntOr env 2

/-- `backoff.delay` of `config/queue.js`: 2000 milliseconds, with
`backoff.type = "exponential"`. -/
def backoffBaseDelay : Nat := 2000

/-- Delay before retry number `n` under Bull's exponential backoff:
the base delay doubles with each attempt made. -/
def backoffDelay (attemptsMade : Nat) : Nat :=
  backoffBaseDelay * 2 ^ (attemptsMade - 1)

/-- Number of job starts falling in the half-open window
`[t0, t0 + d)`. -/
def startsInWindow (d t0 : Nat) (starts : List Nat) : Nat :=
  starts.countP (fun u => decide (t0 ≤ u) && decide (u < t0 + d))

/-- Admissibility of a list of job start times under the Bull rate
limiter `{max := mx, duration := d}`: at most `mx` starts in the window
ending at each start. (Checking windows anchored at start times is
equivalent to checking all windows; see `rateLimitOk_window_bound`.) -/
def rateLimitOk (mx d : Nat) (starts : List Nat) : Bool :=
  starts.all (fun t0 => startsInWindow d t0 starts ≤ mx)

/-- Number of jobs of a `(start, finish)` schedule that are executing at
time `t`. -/
def buildingAt (t : Nat) (schedule : List (Nat × Nat)) : Nat :=
  schedule.countP (fun j => decide (j.1 ≤ t) && decide (t < j.2))

/-- Phases of a Bull job relevant to retry accounting. -/
inductive JobPhase
  | waiting
  | completed
  | failed
deriving DecidableEq, Repr

/-- Queue-side state of one job: attempts made so far and phase. -/
structure JobState where
  attemptsMade : Nat
  phase : JobPhase
deriving DecidableEq, Repr

/-- Result of one execution of the processor: it returns or it raises. -/
inductive Outcome
  | ok
  | raise
deriving DecidableEq, Repr

/-- One processing step under Bull retry semantics with the configured
`attempts` bound: a waiting job is executed once; on success it
completes; on a raise it is retried (goes back to waiting, after the
backoff delay) while attempts remain, and otherwise moves to the failed
set. Completed and failed jobs are never executed again. -/
def jobStep (attempts : Nat) (s : JobState) (o : Outcome) : JobState :=
  match s.phase with
  | JobPhase.waiting =>
    match o with
    | Outcome.ok => ⟨s.attemptsMade + 1, JobPhase.completed⟩
    | Outcome.raise =>
      if s.attemptsMade + 1 < attempts then ⟨s.attemptsMade + 1, JobPhase.waiting⟩
      else ⟨s.attemptsMade + 1, JobPhase.failed⟩
  | _ => s

/-- Iterated processing of a job over a sequence of execution
outcomes. -/
def jobRun (attempts : Nat) (s : JobState) (os : List Outcome) : JobState :=
  os.foldl (jobStep attempts) s

/-- A freshly enqueued job. -/
def initialJobState : JobState := ⟨0, JobPhase.waiting⟩

/-! ## Worker progress writes (buildWorker.js and buildAPK) -/

/-- Progress percentages passed to `updateProgress` by the successive
stages of `buildAPK` in `buildService.js`. -/
def stageProgressList : List Nat := [15, 20, 30, 40, 45, 50, 55, 60, 70, 90, 95]

/-- Progress values written to the build record during one attempt that
fails after `k` stage updates: the worker first writes 10
(`build.progress = 10`), then the first `k` stage percentages; the
`markFailed` call writes no progress. -/
def attemptProgressWrites (k : Nat) : List Nat :=
  10 :: stageProgressList.take k

/-- Progress values written during a successful attempt: 10, every stage
percentage, then 100 from `markCompleted`. -/
def successfulAttemptWrites : List Nat :=
  10 :: stageProgressList ++ [100]

/-- Progress values written over the lifetime of one build: one entry of
`failedAfter` per failed attempt (the number of stage updates it reached
before raising), followed by a successful attempt when `finalSuccess`
holds. -/
def buildProgressWrites (failedAfter : List Nat) (finalSuccess : Bool) : List Nat :=
  (failedAfter.map attemptProgressWrites).flatten ++
    (if finalSuccess then successfulAttemptWrites else [])

/-! ## The template MainActivity.kt (android-template, shipped in the repository)

The file is reproduced exactly; it is split at six newline boundaries
purely to keep each piece small enough for bounded kernel evaluation.
`mainActivityTemplate` concatenates the pieces with the separator
newlines restored, yielding the exact file contents. -/

def mainActivityPart1 : Str := str "package com.web2apk.template\n\nimport android.annotation.SuppressLint\nimport android.app.Activity\nimport android.app.DownloadManager\nimport android.content.Context\nimport android.content.Intent\nimport android.graphics.Bitmap\nimport android.net.Uri\nimport android.os.Bundle\nimport android.os.Environment\nimport android.view.View\nimport android.webkit.*\nimport android.widget.ProgressBar\nimport androidx.activity.result.contract.ActivityResultContracts\nimport androidx.appcompat.app.AppCompatActivity\nimport androidx.swiperefreshlayout.widget.SwipeRefreshLayout\n\nclass MainActivity : AppCompatActivity() \x7b\n\n    // Configuration - These will be replaced during build\n    private val WEBSITE_URL = \"https://example.com\"\n    private val ENABLE_PULL_TO_REFRESH = true\n    private val ENABLE_PROGRESS_BAR = true\n    private val ENABLE_ERROR_PAGE = true\n    private val ENABLE_FILE_UPLOAD = false\n    private val ENABLE_DEEP_LINKING = false\n\n    private lateinit var webView: WebView\n    private lateinit var swipeRefresh: SwipeRefreshLayout\n    private lateinit var progressBar: ProgressBar\n\n    private var fileUploadCallback: ValueCallback<Array<Uri>>? = null\n\n    private val fileChooserLauncher = registerForActivityResult(\n        ActivityResultContracts.StartActivityForResult()\n    ) \x7b result ->\n        val results = if (result.resultCode == Activity.RESULT_OK) \x7b\n            WebChromeClient.FileChooserParams.parseResult(result.resultCode, result.data)\n        \x7d else null\n        fileUploadCallback?.onReceiveValue(results)\n        fileUploadCallback = null\n    \x7d\n\n    @SuppressLint(\"SetJavaScriptEnabled\")\n    override fun onCreate(savedInstanceState: Bundle?) \x7b\n        super.onCreate(savedInstanceState)"

def mainActivityPart2 : Str := str "        setContentView(R.layout.activity_main)\n\n        webView      = findViewById(R.id.webView)\n        swipeRefresh = findViewById(R.id.swipeRefresh)\n        progressBar  = findViewById(R.id.progressBar)\n\n        if (ENABLE_PULL_TO_REFRESH) \x7b\n            swipeRefresh.setOnRefreshListener \x7b webView.reload() \x7d\n            swipeRefresh.setColorSchemeResources(\n                android.R.color.holo_blue_bright,\n                android.R.color.holo_green_light,\n                android.R.color.holo_orange_light,\n                android.R.color.holo_red_light\n            )\n        \x7d else \x7b\n            swipeRefresh.isEnabled = false\n        \x7d\n\n        if (!ENABLE_PROGRESS_BAR) progressBar.visibility = View.GONE\n\n        configureWebView()\n\n        val url = if (ENABLE_DEEP_LINKING && intent.data != null) \x7b\n            intent.data.toString()\n        \x7d else \x7b\n            WEBSITE_URL\n        \x7d\n        webView.loadUrl(url)\n    \x7d\n\n    @SuppressLint(\"SetJavaScriptEnabled\")\n    private fun configureWebView() \x7b\n        webView.settings.apply \x7b\n            javaScriptEnabled                  = true\n            domStorageEnabled                  = true\n            databaseEnabled                    = true\n            setSupportZoom(true)\n            builtInZoomControls                = false\n            loadWithOverviewMode               = true\n            useWideViewPort                    = true\n            javaScriptCanOpenWindowsAutomatically = true\n            mediaPlaybackRequiresUserGesture   = false\n            allowFileAccess                    = true\n            allowContentAccess                 = true\n            setGeolocationEnabled(true)\n            cacheMode                          = WebSettings.LOAD_DEFAULT"

def mainActivityPart3 : Str := str "            mixedContentMode                   = WebSettings.MIXED_CONTENT_ALWAYS_ALLOW\n        \x7d\n\n        webView.webViewClient = object : WebViewClient() \x7b\n\n            override fun shouldOverrideUrlLoading(view: WebView?, request: WebResourceRequest?): Boolean \x7b\n                val url = request?.url?.toString() ?: return false\n                if (url.startsWith(\"tel:\") || url.startsWith(\"mailto:\") ||\n                    url.startsWith(\"sms:\")  || url.startsWith(\"whatsapp:\")\n                ) \x7b\n                    return try \x7b\n                        startActivity(Intent(Intent.ACTION_VIEW, Uri.parse(url)))\n                        true\n                    \x7d catch (e: Exception) \x7b\n                        false\n                    \x7d\n                \x7d\n                return false\n            \x7d\n\n            override fun onPageStarted(view: WebView?, url: String?, favicon: Bitmap?) \x7b\n                super.onPageStarted(view, url, favicon)\n                if (ENABLE_PROGRESS_BAR) progressBar.visibility = View.VISIBLE\n            \x7d\n\n            override fun onPageFinished(view: WebView?, url: String?) \x7b\n                super.onPageFinished(view, url)\n                if (ENABLE_PROGRESS_BAR) progressBar.visibility = View.GONE\n                swipeRefresh.isRefreshing = false\n            \x7d\n\n            override fun onReceivedError(\n                view: WebView?,\n                request: WebResourceRequest?,\n                error: WebResourceError?\n            ) \x7b\n                super.onReceivedError(view, request, error)\n                if (ENABLE_ERROR_PAGE && request?.isForMainFrame == true) showErrorPage()\n            \x7d\n        \x7d\n\n        webView.webChromeClient = object : WebChromeClient() \x7b"

def mainActivityPart4 : Str := str "\n            override fun onProgressChanged(view: WebView?, newProgress: Int) \x7b\n                super.onProgressChanged(view, newProgress)\n                if (ENABLE_PROGRESS_BAR) \x7b\n                    progressBar.progress   = newProgress\n                    progressBar.visibility = if (newProgress == 100) View.GONE else View.VISIBLE\n                \x7d\n            \x7d\n\n            override fun onShowFileChooser(\n                webView: WebView?,\n                filePathCallback: ValueCallback<Array<Uri>>?,\n                fileChooserParams: FileChooserParams?\n            ): Boolean \x7b\n                if (!ENABLE_FILE_UPLOAD) return false\n                fileUploadCallback?.onReceiveValue(null)\n                fileUploadCallback = filePathCallback\n                val intent = fileChooserParams?.createIntent() ?: return false\n                return try \x7b\n                    fileChooserLauncher.launch(intent)\n                    true\n                \x7d catch (e: Exception) \x7b\n                    fileUploadCallback = null\n                    false\n                \x7d\n            \x7d\n\n            override fun onGeolocationPermissionsShowPrompt(\n                origin: String?,\n                callback: GeolocationPermissions.Callback?\n            ) \x7b\n                callback?.invoke(origin, true, false)\n            \x7d\n\n            override fun onConsoleMessage(consoleMessage: ConsoleMessage?): Boolean \x7b\n                consoleMessage?.let \x7b\n                    android.util.Log.d(\"WebView\",\n                        \"$\x7bit.message()\x7d -- From line $\x7bit.lineNumber()\x7d of $\x7bit.sourceId()\x7d\")\n                \x7d\n                return true\n            \x7d\n        \x7d\n\n        webView.setDownloadListener \x7b url, userAgent, contentDisposition, mimeType, _ ->"

def mainActivityPart5 : Str := str "            val filename = URLUtil.guessFileName(url, contentDisposition, mimeType)\n            val request  = DownloadManager.Request(Uri.parse(url)).apply \x7b\n                setMimeType(mimeType)\n                addRequestHeader(\"User-Agent\", userAgent)\n                setDescription(\"Downloading file...\")\n                setTitle(filename)\n                allowScanningByMediaScanner()\n                setNotificationVisibility(DownloadManager.Request.VISIBILITY_VISIBLE_NOTIFY_COMPLETED)\n                setDestinationInExternalPublicDir(Environment.DIRECTORY_DOWNLOADS, filename)\n            \x7d\n            val dm = getSystemService(Context.DOWNLOAD_SERVICE) as DownloadManager\n            dm.enqueue(request)\n        \x7d\n    \x7d\n\n    private fun showErrorPage() \x7b\n        val errorHtml = \"\"\"\n            <!DOCTYPE html>\n            <html>\n            <head>\n                <meta charset=\"UTF-8\">\n                <meta name=\"viewport\" content=\"width=device-width, initial-scale=1.0\">\n                <style>\n                    body \x7b\n                        font-family: -apple-system, BlinkMacSystemFont, 'Segoe UI', Roboto, sans-serif;\n                        display: flex; justify-content: center; align-items: center;\n                        height: 100vh; margin: 0;\n                        background: linear-gradient(135deg, #667eea 0%, #764ba2 100%);\n                        color: white; text-align: center; padding: 20px; box-sizing: border-box;\n                    \x7d\n                    .error-container \x7b max-width: 400px; \x7d\n                    .wifi-icon \x7b font-size: 64px; margin-bottom: 20px; \x7d\n                    h1 \x7b font-size: 72px; margin: 0; font-weight: 700; \x7d\n                    h2 \x7b font-size: 24px; margin: 20px 0; font-weight: 500; \x7d"

def mainActivityPart6 : Str := str "                    p  \x7b font-size: 16px; opacity: 0.9; line-height: 1.6; \x7d\n                    button \x7b\n                        background: white; color: #667eea; border: none;\n                        padding: 15px 30px; font-size: 16px; font-weight: 600;\n                        border-radius: 25px; cursor: pointer; margin-top: 20px;\n                        box-shadow: 0 4px 15px rgba(0,0,0,0.2);\n                    \x7d\n                </style>\n            </head>\n            <body>\n                <div class=\"error-container\">\n                    <div class=\"wifi-icon\">📡</div>\n                    <h1>Oops!</h1>\n                    <h2>No Internet Connection</h2>\n                    <p>Please check your internet connection and try again.</p>\n                    <button onclick=\"location.reload()\">Try Again</button>\n                </div>\n            </body>\n            </html>\n        \"\"\".trimIndent()\n        webView.loadDataWithBaseURL(null, errorHtml, \"text/html\", \"UTF-8\", null)\n    \x7d\n\n    @Deprecated(\"Deprecated in Java\")\n    override fun onBackPressed() \x7b\n        if (webView.canGoBack()) webView.goBack() else super.onBackPressed()\n    \x7d\n\n    override fun onNewIntent(intent: Intent?) \x7b\n        super.onNewIntent(intent)\n        if (ENABLE_DEEP_LINKING && intent?.data != null) \x7b\n            webView.loadUrl(intent.data.toString())\n        \x7d\n    \x7d\n\n    override fun onPause()   \x7b super.onPause();   webView.onPause()   \x7d\n    override fun onResume()  \x7b super.onResume();  webView.onResume()  \x7d\n    override fun onDestroy() \x7b super.onDestroy(); webView.destroy()   \x7d\n\x7d\n"

/-- The exact contents of the template `MainActivity.kt`. -/
def mainActivityTemplate : Str :=
  mainActivityPart1 ++ '\n' :: (mainActivityPart2 ++ '\n' :: (mainActivityPart3 ++ '\n' :: (mainActivityPart4 ++ '\n' :: (mainActivityPart5 ++ '\n' :: (mainActivityPart6)))))

/-! ## Supporting lemmas for the queue model -/

theorem exists_min_mem : ∀ {l : List Nat}, l ≠ [] → ∃ m ∈ l, ∀ x ∈ l, m ≤ x := by
  intro l
  induction l with
  | nil => intro h; exact absurd rfl h
  | cons a t ih =>
    intro _
    by_cases hte : t = []
    · subst hte
      refine ⟨a, List.mem_cons_self a [], ?_⟩
      intro x hx
      have hxa : x = a := by simpa using hx
      omega
    · obtain ⟨m, hm, hmin⟩ := ih hte
      by_cases hma : a ≤ m
      · refine ⟨a, List.mem_cons_self a t, ?_⟩
        intro x hx
        rcases List.mem_cons.mp hx with rfl | hx'
        · exact Nat.le_refl x
        · exact Nat.le_trans hma (hmin x hx')
      · refine ⟨m, List.mem_cons_of_mem _ hm, ?_⟩
        intro x hx
        rcases List.mem_cons.mp hx with rfl | hx'
        · omega
        · exact hmin x hx'

theorem countP_le_countP {α : Type} {p q : α → Bool} :
    ∀ {l : List α}, (∀ u ∈ l, p u = true → q u = true) → l.countP p ≤ l.countP q := by
  intro l
  induction l with
  | nil => intro _; exact Nat.le_refl 0
  | cons a t ih =>
    intro h
    rw [List.countP_cons, List.countP_cons]
    have ht := ih (fun u hu => h u (List.mem_cons_of_mem _ hu))
    by_cases hp : p a = true
    · have hq := h a (List.mem_cons_self a t) hp
      simp only [hp, hq, if_true]
      omega
    · rw [Bool.not_eq_true] at hp
      simp only [hp, Bool.false_eq_true, if_false]
      omega

/-- Core window bound for the configured Bull rate limiter: if every
window anchored at a start time holds at most `mx` starts, then every
window whatsoever does (slide the window right until its left edge hits
the earliest start inside it). -/
theorem rateLimit_window_bound {mx d : Nat} {starts : List Nat}
    (h : rateLimitOk mx d starts = true) (t0 : Nat) :
    startsInWindow d t0 starts ≤ mx := by
  by_cases hz : startsInWindow d t0 starts = 0
  · omega
  · have hpos : 0 < startsInWindow d t0 starts := Nat.pos_of_ne_zero hz
    have hfil : starts.filter (fun u => decide (t0 ≤ u) && decide (u < t0 + d)) ≠ [] := by
      intro hemp
      rw [startsInWindow, List.countP_eq_length_filter, hemp] at hpos
      exact absurd hpos (by simp)
    obtain ⟨m, hmem, hmin⟩ := exists_min_mem hfil
    have hm2 := List.mem_filter.mp hmem
    have hmw : t0 ≤ m ∧ m < t0 + d := by
      have := hm2.2
      simp only [Bool.and_eq_true, decide_eq_true_eq] at this
      exact this
    have hbound : startsInWindow d m starts ≤ mx := by
      have hall := List.all_eq_true.mp h m hm2.1
      simpa using hall
    refine Nat.le_trans ?_ hbound
    apply countP_le_countP
    intro u hu hcond
    simp only [Bool.and_eq_true, decide_eq_true_eq] at hcond ⊢
    have humem : u ∈ starts.filter (fun x => decide (t0 ≤ x) && decide (x < t0 + d)) :=
      List.mem_filter.mpr ⟨hu, by simp [hcond.1, hcond.2]⟩
    exact ⟨hmin u humem, by omega⟩

/-! ## Supporting lemmas for the retry model -/

theorem jobRun_failed_fixed {attempts : Nat} :
    ∀ (os : List Outcome) (s : JobState), s.phase = JobPhase.failed →
      jobRun attempts s os = s := by
  intro os
  induction os with
  | nil => intro s _; rfl
  | cons o os ih =>
    intro s h
    have hstep : jobStep attempts s o = s := by
      unfold jobStep
      rw [h]
    show jobRun attempts (jobStep attempts s o) os = s
    rw [hstep]
    exact ih s h

theorem jobRun_attempts_le {attempts : Nat} :
    ∀ (os : List Outcome) (s : JobState),
      (s.phase = JobPhase.waiting → s.attemptsMade < attempts) →
      s.attemptsMade ≤ attempts →
      (jobRun attempts s os).attemptsMade ≤ attempts := by
  intro os
  induction os with
  | nil => intro s _ h2; exact h2
  | cons o os ih =>
    intro s h1 h2
    show (jobRun attempts (jobStep attempts s o) os).attemptsMade ≤ attempts
    cases hph : s.phase with
    | waiting =>
      have hlt : s.attemptsMade < attempts := h1 hph
      cases o with
      | ok =>
        apply ih
        · intro hw
          simp [jobStep, hph] at hw
        · simp [jobStep, hph]
          omega
      | raise =>
        by_cases hc : s.attemptsMade + 1 < attempts
        · apply ih
          · intro _
            simp [jobStep, hph, hc]
          · simp [jobStep, hph, hc]
            omega
        · apply ih
          · intro hw
            simp [jobStep, hph, hc] at hw
          · simp [jobStep, hph, hc]
            omega
    | completed =>
      have hstep : jobStep attempts s o = s := by unfold jobStep; rw [hph]
      rw [hstep]
      exact ih s (fun hw => absurd (hw ▸ hph) (by simp)) h2
    | failed =>
      have hstep : jobStep attempts s o = s := by unfold jobStep; rw [hph]
      rw [hstep]
      exact ih s (fun hw => absurd (hw ▸ hph) (by simp)) h2

/-! ## Specifications of the replace primitives -/

theorem replaceFirstLit_of_split {lit repl s p t : Str}
    (h : splitFirst lit s = some (p, t)) (hrepl : '$' ∉ repl) :
    replaceFirstLit lit repl s = p ++ repl ++ t := by
  simp only [replaceFirstLit, h]
  rw [expandRepl_eq_of_no_dollar hrepl]

theorem replaceFirstLit_of_none {lit repl s : Str}
    (h : splitFirst lit s = none) : replaceFirstLit lit repl s = s := by
  simp only [replaceFirstLit, h]

theorem replaceAttrQuoted_spec {lit repl s A v B : Str}
    (h : splitFirst lit s = some (A, v ++ '"' :: B)) (hv : '"' ∉ v) (hrepl : '$' ∉ repl) :
    replaceAttrQuoted lit repl s = A ++ repl ++ B := by
  have hva : ∀ a ∈ v, (fun c => decide (c ≠ '"')) a = true := by
    intro a ha
    exact decide_eq_true (fun he => hv (he ▸ ha))
  have htw : (v ++ '"' :: B).takeWhile (fun c => decide (c ≠ '"')) = v :=
    takeWhile_append_cons (by decide) hva
  have hdw : (v ++ '"' :: B).dropWhile (fun c => decide (c ≠ '"')) = '"' :: B :=
    dropWhile_append_cons (by decide) hva
  simp only [replaceAttrQuoted, h, htw, hdw]
  rw [expandRepl_eq_of_no_dollar hrepl]

theorem findWordRun_sound {lit : Str} : ∀ {src p r t : Str},
    findWordRun lit src = some (p, r, t) →
    src = p ++ lit ++ r ++ t ∧ r ≠ [] ∧ ∀ c ∈ r, isWordChar c = true := by
  intro src
  induction src with
  | nil => intro p r t h; simp [findWordRun] at h
  | cons c rest0 ih =>
    intro p r t h
    simp only [findWordRun] at h
    split at h
    · rename_i hp
      split at h
      · rename_i hrun
        cases hfr : findWordRun lit rest0 with
        | none => rw [hfr] at h; simp at h
        | some pr =>
          rw [hfr] at h
          simp only [Option.map_some'] at h
          injection h with h'
          obtain ⟨hs, hr, hw⟩ := ih hfr
          have hp1 : c :: pr.1 = p := congrArg Prod.fst h'
          have hrt : (pr.2.1, pr.2.2) = (r, t) := congrArg Prod.snd h'
          have hr1 : pr.2.1 = r := congrArg Prod.fst hrt
          have ht1 : pr.2.2 = t := congrArg Prod.snd hrt
          subst hp1; subst hr1; subst ht1
          exact ⟨by rw [List.cons_append, List.cons_append, List.cons_append, ← hs], hr, hw⟩
      · rename_i hrun
        injection h with h'
        have hp1 : ([] : Str) = p := congrArg Prod.fst h'
        have hrt := congrArg Prod.snd h'
        have hr1 := congrArg Prod.fst hrt
        have ht1 := congrArg Prod.snd hrt
        simp only at hp1 hr1 ht1
        subst hp1
        obtain ⟨u, hu⟩ := isPrefixOf_iff_exists.mp hp
        have hd : List.drop lit.length (c :: rest0) = u := by rw [hu, List.drop_left]
        rw [hd] at hr1 ht1 hrun
        refine ⟨?_, by rw [← hr1]; exact hrun, ?_⟩
        · rw [List.nil_append, ← hr1, ← ht1, List.append_assoc,
            List.takeWhile_append_dropWhile]
          exact hu
        · intro x hx
          rw [← hr1] at hx
          exact List.mem_takeWhile_imp hx
    · cases hfr : findWordRun lit rest0 with
      | none => rw [hfr] at h; simp at h
      | some pr =>
        rw [hfr] at h
        simp only [Option.map_some'] at h
        injection h with h'
        obtain ⟨hs, hr, hw⟩ := ih hfr
        have hp1 : c :: pr.1 = p := congrArg Prod.fst h'
        have hrt : (pr.2.1, pr.2.2) = (r, t) := congrArg Prod.snd h'
        have hr1 : pr.2.1 = r := congrArg Prod.fst hrt
        have ht1 : pr.2.2 = t := congrArg Prod.snd hrt
        subst hp1; subst hr1; subst ht1
        exact ⟨by rw [List.cons_append, List.cons_append, List.cons_append, ← hs], hr, hw⟩

theorem replaceWordRun_of_found {lit repl src p r t : Str}
    (h : findWordRun lit src = some (p, r, t)) (hrepl : '$' ∉ repl) :
    replaceWordRun lit repl src = p ++ repl ++ t := by
  simp only [replaceWordRun, h]
  rw [expandRepl_eq_of_no_dollar hrepl]

theorem findSpan_of_splits {lit close : Str} (hne : lit ≠ []) :
    ∀ {file pre rest old tl : Str},
      splitFirst lit file = some (pre, rest) →
      splitLast close (rest.takeWhile (fun x => decide (x ≠ '\n'))) = some (old, tl) →
      findSpan lit close file
        = some (pre, old, tl ++ rest.dropWhile (fun x => decide (x ≠ '\n'))) := by
  intro file
  induction file with
  | nil =>
    intro pre rest old tl h1 _
    rw [splitFirst_nil] at h1
    split at h1
    · rename_i hp
      obtain ⟨u, hu⟩ := isPrefixOf_iff_exists.mp hp
      exact absurd (List.append_eq_nil.mp hu.symm).1 hne
    · simp at h1
  | cons c rest0 ih =>
    intro pre rest old tl h1 h2
    rw [splitFirst_cons] at h1
    simp only [findSpan]
    by_cases hp : lit.isPrefixOf (c :: rest0) = true
    · rw [if_pos hp] at h1
      injection h1 with h1'
      have hpre : ([] : Str) = pre := congrArg Prod.fst h1'
      have hrest : List.drop lit.length (c :: rest0) = rest := congrArg Prod.snd h1'
      subst hpre
      rw [if_pos hp, hrest, h2]
    · rw [if_neg (by simpa using hp)] at h1
      rw [if_neg (by simpa using hp)]
      cases hfr : splitFirst lit rest0 with
      | none => rw [hfr] at h1; simp at h1
      | some pr =>
        rw [hfr] at h1
        simp only [Option.map_some'] at h1
        injection h1 with h1'
        have hpre : c :: pr.1 = pre := congrArg Prod.fst h1'
        have hrest : pr.2 = rest := congrArg Prod.snd h1'
        have h2' : splitLast close (pr.2.takeWhile (fun x => decide (x ≠ '\n')))
            = some (old, tl) := by rw [hrest]; exact h2
        have hres := ih hfr h2'
        rw [hres]
        simp only [Option.map_some']
        rw [hpre, hrest]

theorem replaceSpanGreedy_of_found {lit close repl s p mid suf : Str}
    (h : findSpan lit close s = some (p, mid, suf)) (hrepl : '$' ∉ repl) :
    replaceSpanGreedy lit close repl s = p ++ repl ++ suf := by
  simp only [replaceSpanGreedy, h]
  rw [expandRepl_eq_of_no_dollar hrepl]

/-! ## Single-pass characterisation of escapeXml -/

theorem mapConcat_congr {f g : Char → Str} (h : ∀ c, f c = g c) :
    ∀ s, mapConcat f s = mapConcat g s := by
  intro s
  induction s with
  | nil => rfl
  | cons a t ih => simp [mapConcat, h a, ih]

theorem escapeXml_eq_mapConcat : ∀ s, escapeXml s = mapConcat xmlEscapeChar s := by
  intro s
  unfold escapeXml
  rw [replaceAllChar_eq_mapConcat, replaceAllChar_eq_mapConcat, replaceAllChar_eq_mapConcat,
    replaceAllChar_eq_mapConcat, replaceAllChar_eq_mapConcat]
  rw [mapConcat_mapConcat, mapConcat_mapConcat, mapConcat_mapConcat, mapConcat_mapConcat]
  apply mapConcat_congr
  intro c
  by_cases h1 : c = '&'
  · subst h1; rfl
  by_cases h2 : c = '<'
  · subst h2; rfl
  by_cases h3 : c = '>'
  · subst h3; rfl
  by_cases h4 : c = '"'
  · subst h4; rfl
  by_cases h5 : c = aposChar
  · subst h5; rfl
  simp [mapConcat, xmlEscapeChar, h1, h2, h3, h4, h5]

theorem no_dollar_escapeXml {appName : Str} (h : '$' ∉ appName) : '$' ∉ escapeXml appName := by
  rw [escapeXml_eq_mapConcat]
  intro hc
  obtain ⟨x, hx, hcx⟩ := mem_mapConcat hc
  by_cases h1 : x = '&'
  · subst h1; exact absurd hcx (by decide)
  by_cases h2 : x = '<'
  · subst h2; exact absurd hcx (by decide)
  by_cases h3 : x = '>'
  · subst h3; exact absurd hcx (by decide)
  by_cases h4 : x = '"'
  · subst h4; exact absurd hcx (by decide)
  by_cases h5 : x = aposChar
  · subst h5; exact absurd hcx (by decide)
  simp only [xmlEscapeChar, h1, h2, h3, h4, h5, if_false] at hcx
  rw [List.mem_singleton] at hcx
  exact h (hcx ▸ hx)

/-! ## The watermark placeholder is absent from the shipped template -/

theorem watermark_marker_absent : splitFirst watermarkMarker mainActivityTemplate = none := by
  rw [splitFirst_eq_none_iff]
  intro hocc
  unfold mainActivityTemplate at hocc
  have hnl : '\n' ∉ watermarkMarker := by decide
  have h1 : ¬ occurs watermarkMarker mainActivityPart1 := by
    rw [← splitFirst_isSome_iff]; decide
  have h2 : ¬ occurs watermarkMarker mainActivityPart2 := by
    rw [← splitFirst_isSome_iff]; decide
  have h3 : ¬ occurs watermarkMarker mainActivityPart3 := by
    rw [← splitFirst_isSome_iff]; decide
  have h4 : ¬ occurs watermarkMarker mainActivityPart4 := by
    rw [← splitFirst_isSome_iff]; decide
  have h5 : ¬ occurs watermarkMarker mainActivityPart5 := by
    rw [← splitFirst_isSome_iff]; decide
  have h6 : ¬ occurs watermarkMarker mainActivityPart6 := by
    rw [← splitFirst_isSome_iff]; decide
  rcases occurs_append_sep hnl hocc with h | hocc
  · exact h1 h
  rcases occurs_append_sep hnl hocc with h | hocc
  · exact h2 h
  rcases occurs_append_sep hnl hocc with h | hocc
  · exact h3 h
  rcases occurs_append_sep hnl hocc with h | hocc
  · exact h4 h
  rcases occurs_append_sep hnl hocc with h | hocc
  · exact h5 h
  exact h6 hocc

/-! ## Claim C1 -/

/-- A record as the worker holds it mid-build: the user cancels it while
it is in the `building` state. -/
def buildingRecordExample : BuildRecord :=
  { status := BuildStatus.building
    progress := 70
    currentStep := "Building APK (this may take a few minutes)..." }

/-- C1: the specification asserts that the terminal `markCompleted` and
`markFailed` writes check that the current status is a non-terminal,
non-cancelled value before applying, so that a user cancellation is never
overwritten. Evaluating the embedded code at the failing input shows the
opposite: a record cancelled while `building` is afterwards overwritten
to `completed` (resp. `failed`) because both methods assign the status
unconditionally. -/
theorem C1_cancelled_record_overwritten :
    (cancelBuild buildingRecordExample).status = BuildStatus.cancelled
    ∧ (markCompleted (cancelBuild buildingRecordExample)
        "builds/b1.apk" 1024 "/downloads/b1.apk").status = BuildStatus.completed
    ∧ (markFailed (cancelBuild buildingRecordExample)
        "Build failed: gradle exited 1").status = BuildStatus.failed :=
  ⟨rfl, rfl, rfl⟩

/-! ## Claim C2 -/

/-- C2 (counterexample): the queue configuration's `limiter` is a rate
limiter — at most `max` job starts per `duration` window — not a bound on
simultaneous building. Four ten-minute jobs started 1100 ms apart are
admissible under the default limiter (3 starts per 1000 ms) yet are all
in the building state at time 3300. -/
theorem C2_counterexample :
    rateLimitOk (maxConcurrentBuilds none) limiterDuration [0, 1100, 2200, 3300] = true
    ∧ maxConcurrentBuilds none
        < buildingAt 3300 [(0, 600000), (1100, 601100), (2200, 602200), (3300, 603300)] := by
  decide

/-- C2 (amended): the property the configured limiter does enforce: under
the default configuration (`MAX_CONCURRENT_BUILDS` unset, so `max = 3`,
`duration = 1000`), any admissible list of job start times has at most 3
starts within any 1000 ms window. -/
theorem C2_rate_limit_bound (starts : List Nat)
    (h : rateLimitOk (maxConcurrentBuilds none) limiterDuration starts = true) :
    ∀ t0, startsInWindow limiterDuration t0 starts ≤ maxConcurrentBuilds none :=
  fun t0 => rateLimit_window_bound h t0

/-- C2 (witness): the amended theorem applied to a concrete admissible
start list and a concrete window. -/
theorem C2_rate_limit_bound_witness :
    rateLimitOk (maxConcurrentBuilds none) limiterDuration [0, 200, 400] = true
    ∧ startsInWindow limiterDuration 100 [0, 200, 400] ≤ maxConcurrentBuilds none :=
  ⟨by decide, C2_rate_limit_bound [0, 200, 400] (by decide) 100⟩

/-! ## Claim C3 -/

/-- C3 (counterexample): progress is not non-decreasing across attempts.
If the first attempt fails after two stage updates (having written 10,
15, 20) the retrying attempt starts by writing 10 again, a decrease. -/
theorem C3_counterexample :
    ¬ List.Chain' (· ≤ ·) (buildProgressWrites [2] true) := by
  rw [List.chain'_iff_pairwise]
  decide

/-- C3 (amended): within any single attempt the progress writes are
non-decreasing — for a failed attempt (10 followed by a prefix of the
stage percentages) and for the successful attempt (10, all stage
percentages, then 100 written by `markCompleted`); the successful
attempt's final write is exactly 100, and `markCompleted` always sets
progress 100 together with status `completed`. -/
theorem C3_progress_monotone_per_attempt :
    (∀ k, List.Chain' (· ≤ ·) (attemptProgressWrites k))
    ∧ List.Chain' (· ≤ ·) successfulAttemptWrites
    ∧ successfulAttemptWrites.getLast? = some 100
    ∧ (∀ (b : BuildRecord) (p : String) (n : Nat) (u : String),
        (markCompleted b p n u).progress = 100
        ∧ (markCompleted b p n u).status = BuildStatus.completed) := by
  refine ⟨?_, ?_, by decide, fun b p n u => ⟨rfl, rfl⟩⟩
  · intro k
    have hs : List.Pairwise (· ≤ ·) (10 :: stageProgressList) := by decide
    have hsub : List.Sublist (10 :: stageProgressList.take k) (10 :: stageProgressList) :=
      List.Sublist.cons₂ _ (List.take_sublist _ _)
    exact (hs.sublist hsub).chain'
  · rw [List.chain'_iff_pairwise]
    decide

/-! ## Claim C4 -/

/-- C4: under the configured retry policy (`attempts` defaulting to 2,
exponential backoff with base delay 2000 ms), a job is executed at most
`attempts` times in total; a job in the failed set is never processed
again; two raises exhaust the attempts and leave the job failed; and the
backoff delay starts at the base delay and doubles with each attempt
made. -/
theorem C4_retry_bounded_with_backoff :
    (∀ os : List Outcome,
        (jobRun (buildQueueAttempts none) initialJobState os).attemptsMade
          ≤ buildQueueAttempts none)
    ∧ (∀ (s : JobState) (os : List Outcome), s.phase = JobPhase.failed →
        jobRun (buildQueueAttempts none) s os = s)
    ∧ jobRun (buildQueueAttempts none) initialJobState [Outcome.raise, Outcome.raise]
        = ⟨2, JobPhase.failed⟩
    ∧ backoffDelay 1 = 2000
    ∧ (∀ n, 1 ≤ n → backoffDelay (n + 1) = 2 * backoffDelay n) := by
  refine ⟨?_, ?_, by decide, by decide, ?_⟩
  · intro os
    exact jobRun_attempts_le os initialJobState (fun _ => by decide) (by decide)
  · intro s os h
    exact jobRun_failed_fixed os s h
  · intro n hn
    unfold backoffDelay backoffBaseDelay
    have he : n + 1 - 1 = (n - 1) + 1 := by omega
    rw [he, pow_succ]
    ring

/-- C4 (witness): the theorem applied at concrete inputs discharging its
hypotheses. -/
theorem C4_retry_bounded_witness :
    jobRun (buildQueueAttempts none) ⟨2, JobPhase.failed⟩ [Outcome.ok] = ⟨2, JobPhase.failed⟩
    ∧ backoffDelay 2 = 2 * backoffDelay 1 :=
  ⟨C4_retry_bounded_with_backoff.2.1 ⟨2, JobPhase.failed⟩ [Outcome.ok] rfl,
    C4_retry_bounded_with_backoff.2.2.2.2 1 (by decide)⟩

/-! ## Claims C8 and C9 -/

/-- C8: when the four keystore settings are not all configured, `signAPK`
returns the unsigned artifact path unchanged; no error is raised (the
function is total and returns a path for every subprocess outcome). -/
theorem C8_unsigned_fallback (e : KeystoreEnv) (run : Except String Unit)
    (unsigned signed : String) (h : keystoreConfigured e = false) :
    signAPK e run unsigned signed = unsigned := by
  simp [signAPK, h]

/-- C8 (witness): the theorem applied to an environment with no keystore
settings and a failing subprocess. -/
theorem C8_unsigned_fallback_witness :
    keystoreConfigured ⟨none, none, none, none⟩ = false
    ∧ signAPK ⟨none, none, none, none⟩ (Except.error "apksigner missing")
        "temp/b1/app-release-unsigned.apk" "temp/b1-signed.apk"
        = "temp/b1/app-release-unsigned.apk" :=
  ⟨rfl, C8_unsigned_fallback _ _ _ _ rfl⟩

/-- C9: when the keystore is configured but the external signing
subprocess raises, `signAPK` catches the error and returns the original
unsigned artifact path, so a signing failure alone never fails the build
attempt. -/
theorem C9_sign_failure_nonfatal (e : KeystoreEnv) (msg : String)
    (unsigned signed : String) (h : keystoreConfigured e = true) :
    signAPK e (Except.error msg) unsigned signed = unsigned := by
  simp [signAPK, h]

/-- C9 (witness): the theorem applied to a fully configured environment
and a failing subprocess. -/
theorem C9_sign_failure_nonfatal_witness :
    keystoreConfigured ⟨some "release.jks", some "pw", some "release", some "kpw"⟩ = true
    ∧ signAPK ⟨some "release.jks", some "pw", some "release", some "kpw"⟩
        (Except.error "apksigner exited 1")
        "temp/b1/app-release-unsigned.apk" "temp/b1-signed.apk"
        = "temp/b1/app-release-unsigned.apk" :=
  ⟨by decide, C9_sign_failure_nonfatal _ _ _ _ (by decide)⟩

/-! ## Claim C5 -/

/-- Default feature set (the schema defaults), used as one side of the
flag-independence counterexample. -/
def featuresA : Features :=
  { pullToRefresh := true
    progressBar := true
    errorPage := true
    fileUpload := false
    deepLinking := false
    swipeRefresh := true
    geolocation := false
    localStorage := true }

/-- Feature set differing from `featuresA` exactly in `swipeRefresh`,
`geolocation` and `localStorage`. -/
def featuresB : Features :=
  { pullToRefresh := true
    progressBar := true
    errorPage := true
    fileUpload := false
    deepLinking := false
    swipeRefresh := false
    geolocation := true
    localStorage := false }

/-- C5 (counterexample): the claim speaks of six feature flags being
substituted into the activity source, and of the watermark snippet being
injected at the placeholder exactly for non-premium builds. In fact only
five flags are read — two feature sets differing in `swipeRefresh`,
`geolocation` and `localStorage` produce identical patched activities —
and the shipped template contains no `// WATERMARK_PLACEHOLDER` at all,
so the non-premium injection never fires on it. -/
theorem C5_counterexample :
    featuresA ≠ featuresB
    ∧ updateMainActivity mainActivityTemplate (str "com.acme.demo")
        (str "https://example.com") featuresA false
      = updateMainActivity mainActivityTemplate (str "com.acme.demo")
        (str "https://example.com") featuresB false
    ∧ splitFirst watermarkMarker mainActivityTemplate = none :=
  ⟨by decide, rfl, watermark_marker_absent⟩

/-- C5 (amended): the runtime-configuration patch (i) depends only on the
five flags pullToRefresh, progressBar, errorPage, fileUpload and
deepLinking; (ii) replaces the matched boolean literal of each of the
five `ENABLE_… = ` constants with the JS rendering of the configured
flag; (iii) replaces the greedily matched `WEBSITE_URL = "…"` value with
the configured URL; (iv) the non-premium output is exactly the premium
output with the first `// WATERMARK_PLACEHOLDER` replaced by the
watermark snippet — an actual injection when the placeholder occurs, a
no-op otherwise — and (v) the shipped template contains no such
placeholder. -/
theorem C5_flag_url_watermark_patch :
    (∀ (src pkg url : Str) (f g : Features) (prem : Bool),
      f.pullToRefresh = g.pullToRefresh → f.progressBar = g.progressBar →
      f.errorPage = g.errorPage → f.fileUpload = g.fileUpload →
      f.deepLinking = g.deepLinking →
      updateMainActivity src pkg url f prem = updateMainActivity src pkg url g prem)
    ∧ (∀ lit, lit ∈ activityFlagPatterns → ∀ (b : Bool) (src p r t : Str),
        findWordRun lit src = some (p, r, t) →
        replaceWordRun lit (lit ++ jsBool b) src = p ++ (lit ++ jsBool b) ++ t
        ∧ src = p ++ lit ++ r ++ t ∧ r ≠ [])
    ∧ (∀ (url src p rest old tl : Str),
        splitFirst (str "WEBSITE_URL = \"") src = some (p, rest) →
        splitLast (str "\"") (rest.takeWhile (fun x => decide (x ≠ '\n'))) = some (old, tl) →
        '$' ∉ url →
        replaceSpanGreedy (str "WEBSITE_URL = \"") (str "\"")
            (str "WEBSITE_URL = \"" ++ url ++ str "\"") src
          = p ++ (str "WEBSITE_URL = \"" ++ url ++ str "\"")
              ++ (tl ++ rest.dropWhile (fun x => decide (x ≠ '\n'))))
    ∧ (∀ (src pkg url : Str) (f : Features),
        updateMainActivity src pkg url f false
          = replaceFirstLit watermarkMarker watermarkCode
              (updateMainActivity src pkg url f true))
    ∧ (∀ (s p t : Str), splitFirst watermarkMarker s = some (p, t) →
        replaceFirstLit watermarkMarker watermarkCode s = p ++ watermarkCode ++ t)
    ∧ (∀ s : Str, splitFirst watermarkMarker s = none →
        replaceFirstLit watermarkMarker watermarkCode s = s)
    ∧ splitFirst watermarkMarker mainActivityTemplate = none := by
  refine ⟨?_, ?_, ?_, ?_, ?_, ?_, watermark_marker_absent⟩
  · intro src pkg url f g prem h1 h2 h3 h4 h5
    obtain ⟨f1, f2, f3, f4, f5, f6, f7, f8⟩ := f
    obtain ⟨g1, g2, g3, g4, g5, g6, g7, g8⟩ := g
    have e1 : f1 = g1 := h1
    have e2 : f2 = g2 := h2
    have e3 : f3 = g3 := h3
    have e4 : f4 = g4 := h4
    have e5 : f5 = g5 := h5
    subst e1; subst e2; subst e3; subst e4; subst e5
    rfl
  · intro lit hlit b src p r t h
    have hlit' : lit = str "ENABLE_PULL_TO_REFRESH = " ∨ lit = str "ENABLE_PROGRESS_BAR = "
        ∨ lit = str "ENABLE_ERROR_PAGE = " ∨ lit = str "ENABLE_FILE_UPLOAD = "
        ∨ lit = str "ENABLE_DEEP_LINKING = " := by
      simpa [activityFlagPatterns] using hlit
    have hd : '$' ∉ lit ++ jsBool b := by
      intro hm
      rcases List.mem_append.mp hm with hm | hm
      · rcases hlit' with rfl | rfl | rfl | rfl | rfl <;> revert hm <;> decide
      · revert hm; cases b <;> decide
    obtain ⟨hs, hr, _⟩ := findWordRun_sound h
    exact ⟨replaceWordRun_of_found h hd, hs, hr⟩
  · intro url src p rest old tl h1 h2 hurl
    have hd : '$' ∉ str "WEBSITE_URL = \"" ++ url ++ str "\"" := by
      intro hm
      rcases List.mem_append.mp hm with hm | hm
      · rcases List.mem_append.mp hm with hm | hm
        · revert hm; decide
        · exact hurl hm
      · revert hm; decide
    exact replaceSpanGreedy_of_found (findSpan_of_splits (by decide) h1 h2) hd
  · intro src pkg url f
    rfl
  · intro s p t h
    exact replaceFirstLit_of_split h (by decide)
  · intro s h
    exact replaceFirstLit_of_none h

/-- Sample activity source used to instantiate the C5 patch theorem. -/
def tinyActivitySample : Str :=
  str "package com.web2apk.template\n    private val WEBSITE_URL = \"https://example.com\"\n    private val ENABLE_PULL_TO_REFRESH = true\n        // WATERMARK_PLACEHOLDER\n"

/-- C5 (witness): the patch theorem applied at concrete inputs: the
pullToRefresh constant of the sample source is rewritten to `false`, the
URL constant is rewritten, and the placeholder is replaced by the
watermark snippet. -/
theorem C5_flag_url_watermark_patch_witness :
    replaceWordRun (str "ENABLE_PULL_TO_REFRESH = ")
        (str "ENABLE_PULL_TO_REFRESH = " ++ jsBool false) tinyActivitySample
      = str "package com.web2apk.template\n    private val WEBSITE_URL = \"https://example.com\"\n    private val "
          ++ (str "ENABLE_PULL_TO_REFRESH = " ++ jsBool false)
          ++ str "\n        // WATERMARK_PLACEHOLDER\n"
    ∧ replaceSpanGreedy (str "WEBSITE_URL = \"") (str "\"")
        (str "WEBSITE_URL = \"" ++ str "https://web2apk.dev" ++ str "\"") tinyActivitySample
      = str "package com.web2apk.template\n    private val "
          ++ (str "WEBSITE_URL = \"" ++ str "https://web2apk.dev" ++ str "\"")
          ++ (str "" ++ str "\n    private val ENABLE_PULL_TO_REFRESH = true\n        // WATERMARK_PLACEHOLDER\n")
    ∧ replaceFirstLit watermarkMarker watermarkCode tinyActivitySample
      = str "package com.web2apk.template\n    private val WEBSITE_URL = \"https://example.com\"\n    private val ENABLE_PULL_TO_REFRESH = true\n        "
          ++ watermarkCode ++ str "\n" := by
  refine ⟨?_, ?_, ?_⟩
  · exact (C5_flag_url_watermark_patch.2.1 (str "ENABLE_PULL_TO_REFRESH = ") (by decide)
      false tinyActivitySample
      (str "package com.web2apk.template\n    private val WEBSITE_URL = \"https://example.com\"\n    private val ")
      (str "true")
      (str "\n        // WATERMARK_PLACEHOLDER\n") (by decide)).1
  · exact C5_flag_url_watermark_patch.2.2.1 (str "https://web2apk.dev") tinyActivitySample
      (str "package com.web2apk.template\n    private val ")
      (str "https://example.com\"\n    private val ENABLE_PULL_TO_REFRESH = true\n        // WATERMARK_PLACEHOLDER\n")
      (str "https://example.com") (str "") (by decide) (by decide) (by decide)
  · exact C5_flag_url_watermark_patch.2.2.2.2.1 tinyActivitySample
      (str "package com.web2apk.template\n    private val WEBSITE_URL = \"https://example.com\"\n    private val ENABLE_PULL_TO_REFRESH = true\n        ")
      (str "\n") (by decide)

/-! ## Claims C6 and C10 -/

/-- Permission name patterns whose occurrences are counted in the patched
manifest. -/
def permReadStorage : Str := str "android.permission.READ_EXTERNAL_STORAGE"

def permWriteStorage : Str := str "android.permission.WRITE_EXTERNAL_STORAGE"

def permFineLocation : Str := str "android.permission.ACCESS_FINE_LOCATION"

def permCoarseLocation : Str := str "android.permission.ACCESS_COARSE_LOCATION"

def permInternet : Str := str "android.permission.INTERNET"

def permNetworkState : Str := str "android.permission.ACCESS_NETWORK_STATE"

/-- A manifest with a quoted `package` attribute: the shape over which
the manifest-patch theorems are stated. -/
def manifestSubject (A v B : Str) : Str := A ++ str "package=\"" ++ v ++ '"' :: B

/-- The full text `updateAndroidManifest` substitutes for the first
`<application`: the permission block followed by the reinstated
application tag. -/
def blockAll (fileUpload geolocation : Bool) : Str :=
  permissionsBlock fileUpload geolocation ++ str "\n\n    <application"

theorem blockAll_head (fu geo : Bool) :
    blockAll fu geo = '\n' :: (blockAll fu geo).tail := by
  cases fu <;> cases geo <;> rfl

theorem no_dollar_blockAll (fu geo : Bool) : '$' ∉ blockAll fu geo := by
  cases fu <;> cases geo <;> decide

theorem countOcc_over_insert {pat : Str} (hne : pat ≠ []) (hnl : '\n' ∉ pat) {ssep : Char}
    (hc : ssep ∉ pat) (P S2 block bt : Str) (hb : block = '\n' :: bt) :
    countOcc pat (P ++ block ++ ssep :: S2)
      = countOcc pat P + countOcc pat bt + countOcc pat S2 := by
  subst hb
  have hform : (P ++ ('\n' :: bt)) ++ ssep :: S2 = P ++ '\n' :: (bt ++ ssep :: S2) := by
    simp [List.append_assoc]
  rw [hform, countOcc_append_sep hne hnl, countOcc_append_sep hne hc]
  omega

theorem countOcc_blockAll {pat : Str} (hne : pat ≠ []) (hnl : '\n' ∉ pat) {ssep : Char}
    (hc : ssep ∉ pat) (P S2 : Str) (fu geo : Bool) :
    countOcc pat (P ++ blockAll fu geo ++ ssep :: S2)
      = countOcc pat P + countOcc pat ((blockAll fu geo).tail) + countOcc pat S2 :=
  countOcc_over_insert hne hnl hc P S2 _ _ (blockAll_head fu geo)

theorem readStorage_in_blockAll (fu geo : Bool) :
    countOcc permReadStorage ((blockAll fu geo).tail) = if fu then 1 else 0 := by
  cases fu <;> cases geo <;> decide

theorem writeStorage_in_blockAll (fu geo : Bool) :
    countOcc permWriteStorage ((blockAll fu geo).tail) = if fu then 1 else 0 := by
  cases fu <;> cases geo <;> decide

theorem fineLocation_in_blockAll (fu geo : Bool) :
    countOcc permFineLocation ((blockAll fu geo).tail) = if geo then 1 else 0 := by
  cases fu <;> cases geo <;> decide

theorem coarseLocation_in_blockAll (fu geo : Bool) :
    countOcc permCoarseLocation ((blockAll fu geo).tail) = if geo then 1 else 0 := by
  cases fu <;> cases geo <;> decide

theorem internet_in_blockAll (fu geo : Bool) :
    countOcc permInternet ((blockAll fu geo).tail) = 1 := by
  cases fu <;> cases geo <;> decide

theorem networkState_in_blockAll (fu geo : Bool) :
    countOcc permNetworkState ((blockAll fu geo).tail) = 1 := by
  cases fu <;> cases geo <;> decide

/-- Shared core of the manifest-patch claims: on any manifest whose first
`package="…"` attribute carries the quote-free value `v` and whose first
`<application` (after the package substitution) is followed by a space or
newline, `updateAndroidManifest` yields exactly the prefix before the
application tag, then the permission block, then the reinstated
application tag and the original remainder; moreover the package
attribute now carries the configured name. -/
theorem updateAndroidManifest_shape
    (A v B P S2 pkg : Str) (ssep : Char) (f : Features)
    (h1 : splitFirst (str "package=\"") (manifestSubject A v B) = some (A, v ++ '"' :: B))
    (hv : '"' ∉ v)
    (hpkg : '$' ∉ pkg)
    (h2 : splitFirst (str "<application") (manifestSubject A pkg B) = some (P, ssep :: S2)) :
    updateAndroidManifest (manifestSubject A v B) pkg f
      = P ++ blockAll f.fileUpload f.geolocation ++ ssep :: S2
    ∧ P ++ str "<application" ++ ssep :: S2 = manifestSubject A pkg B := by
  have hd1 : '$' ∉ str "package=\"" ++ pkg ++ str "\"" := by
    intro hm
    rcases List.mem_append.mp hm with hm | hm
    · rcases List.mem_append.mp hm with hm | hm
      · revert hm; decide
      · exact hpkg hm
    · revert hm; decide
  have hi : replaceAttrQuoted (str "package=\"") (str "package=\"" ++ pkg ++ str "\"")
      (manifestSubject A v B) = A ++ (str "package=\"" ++ pkg ++ str "\"") ++ B :=
    replaceAttrQuoted_spec h1 hv hd1
  have hi2 : A ++ (str "package=\"" ++ pkg ++ str "\"") ++ B = manifestSubject A pkg B := by
    have hq : str "\"" = ['"'] := rfl
    rw [hq]
    simp [manifestSubject, List.append_assoc]
  constructor
  · show replaceFirstLit (str "<application") (blockAll f.fileUpload f.geolocation)
      (replaceAttrQuoted (str "package=\"") (str "package=\"" ++ pkg ++ str "\"")
        (manifestSubject A v B)) = _
    rw [hi, hi2]
    exact replaceFirstLit_of_split h2 (no_dollar_blockAll f.fileUpload f.geolocation)
  · exact (splitFirst_sound h2).symm

/-- C6: the manifest patch replaces the package attribute value with the
configured package name and inserts the permission block immediately
before the first `<application`; each optional permission name occurs in
the patched manifest exactly once more than in the surrounding original
text if and only if its feature flag is set (storage pair for
`fileUpload`, location pair for `geolocation`). -/
theorem C6_manifest_patch
    (A v B P S2 pkg : Str) (ssep : Char) (f : Features)
    (h1 : splitFirst (str "package=\"") (manifestSubject A v B) = some (A, v ++ '"' :: B))
    (hv : '"' ∉ v)
    (hpkg : '$' ∉ pkg)
    (h2 : splitFirst (str "<application") (manifestSubject A pkg B) = some (P, ssep :: S2))
    (hsep : ssep = ' ' ∨ ssep = '\n') :
    updateAndroidManifest (manifestSubject A v B) pkg f
      = P ++ blockAll f.fileUpload f.geolocation ++ ssep :: S2
    ∧ P ++ str "<application" ++ ssep :: S2 = manifestSubject A pkg B
    ∧ countOcc permReadStorage (updateAndroidManifest (manifestSubject A v B) pkg f)
        = (if f.fileUpload then 1 else 0)
            + (countOcc permReadStorage P + countOcc permReadStorage S2)
    ∧ countOcc permWriteStorage (updateAndroidManifest (manifestSubject A v B) pkg f)
        = (if f.fileUpload then 1 else 0)
            + (countOcc permWriteStorage P + countOcc permWriteStorage S2)
    ∧ countOcc permFineLocation (updateAndroidManifest (manifestSubject A v B) pkg f)
        = (if f.geolocation then 1 else 0)
            + (countOcc permFineLocation P + countOcc permFineLocation S2)
    ∧ countOcc permCoarseLocation (updateAndroidManifest (manifestSubject A v B) pkg f)
        = (if f.geolocation then 1 else 0)
            + (countOcc permCoarseLocation P + countOcc permCoarseLocation S2) := by
  obtain ⟨hshape, hpkgrepl⟩ := updateAndroidManifest_shape A v B P S2 pkg ssep f h1 hv hpkg h2
  refine ⟨hshape, hpkgrepl, ?_, ?_, ?_, ?_⟩
  · rw [hshape, countOcc_blockAll (by decide) (by decide)
      (by rcases hsep with rfl | rfl <;> decide) P S2 f.fileUpload f.geolocation,
      readStorage_in_blockAll]
    omega
  · rw [hshape, countOcc_blockAll (by decide) (by decide)
      (by rcases hsep with rfl | rfl <;> decide) P S2 f.fileUpload f.geolocation,
      writeStorage_in_blockAll]
    omega
  · rw [hshape, countOcc_blockAll (by decide) (by decide)
      (by rcases hsep with rfl | rfl <;> decide) P S2 f.fileUpload f.geolocation,
      fineLocation_in_blockAll]
    omega
  · rw [hshape, countOcc_blockAll (by decide) (by decide)
      (by rcases hsep with rfl | rfl <;> decide) P S2 f.fileUpload f.geolocation,
      coarseLocation_in_blockAll]
    omega

/-- Modelled from the spec: a representative template `AndroidManifest.xml`
of the Android template project — the template resource tree is not among
the provided sources; the specification fixes a manifest with a
package-identifier attribute and an application declaration. -/
def manifestA : Str :=
  str "<?xml version=\"1.0\"?>\n<manifest xmlns:android=\"http://schemas.android.com/apk/res/android\"\n    "

/-- Original package value of the modelled manifest. -/
def manifestV : Str := str "com.web2apk.template"

/-- Remainder of the modelled manifest after the package attribute. -/
def manifestB : Str :=
  str ">\n\n    <application android:label=\"@string/app_name\">\n    </application>\n</manifest>\n"

/-- Prefix of the patched manifest up to the application declaration. -/
def manifestP : Str :=
  str "<?xml version=\"1.0\"?>\n<manifest xmlns:android=\"http://schemas.android.com/apk/res/android\"\n    package=\"com.acme.demo\">\n\n    "

/-- Remainder of the patched manifest after `<application` and the
following space. -/
def manifestS2 : Str :=
  str "android:label=\"@string/app_name\">\n    </application>\n</manifest>\n"

/-- C6 (witness): the manifest-patch theorem applied to the modelled
manifest with `fileUpload` enabled and `geolocation` disabled. -/
theorem C6_manifest_patch_witness :
    updateAndroidManifest (manifestSubject manifestA manifestV manifestB)
        (str "com.acme.demo") ⟨true, true, true, true, false, true, false, true⟩
      = manifestP ++ blockAll true false ++ ' ' :: manifestS2
    ∧ countOcc permReadStorage
        (updateAndroidManifest (manifestSubject manifestA manifestV manifestB)
          (str "com.acme.demo") ⟨true, true, true, true, false, true, false, true⟩) = 1
    ∧ countOcc permFineLocation
        (updateAndroidManifest (manifestSubject manifestA manifestV manifestB)
          (str "com.acme.demo") ⟨true, true, true, true, false, true, false, true⟩) = 0 := by
  obtain ⟨hs, _, hrd, _, hfl, _⟩ := C6_manifest_patch manifestA manifestV manifestB
    manifestP manifestS2 (str "com.acme.demo") ' '
    ⟨true, true, true, true, false, true, false, true⟩
    (by decide) (by decide) (by decide) (by decide) (Or.inl rfl)
  refine ⟨hs, ?_, ?_⟩
  · rw [hrd]; decide
  · rw [hfl]; decide

/-- C10: for every feature set — in particular with every optional flag
disabled — the manifest patch inserts the INTERNET and
ACCESS_NETWORK_STATE permission declarations before the application
declaration: the patched manifest is the prefix before `<application`
followed by the permission block, and each of the two permission names
occurs exactly once more than in the surrounding original text. -/
theorem C10_manifest_baseline_permissions
    (A v B P S2 pkg : Str) (ssep : Char) (f : Features)
    (h1 : splitFirst (str "package=\"") (manifestSubject A v B) = some (A, v ++ '"' :: B))
    (hv : '"' ∉ v)
    (hpkg : '$' ∉ pkg)
    (h2 : splitFirst (str "<application") (manifestSubject A pkg B) = some (P, ssep :: S2))
    (hsep : ssep = ' ' ∨ ssep = '\n') :
    updateAndroidManifest (manifestSubject A v B) pkg f
      = P ++ blockAll f.fileUpload f.geolocation ++ ssep :: S2
    ∧ countOcc permInternet (updateAndroidManifest (manifestSubject A v B) pkg f)
        = 1 + (countOcc permInternet P + countOcc permInternet S2)
    ∧ countOcc permNetworkState (updateAndroidManifest (manifestSubject A v B) pkg f)
        = 1 + (countOcc permNetworkState P + countOcc permNetworkState S2) := by
  obtain ⟨hshape, _⟩ := updateAndroidManifest_shape A v B P S2 pkg ssep f h1 hv hpkg h2
  refine ⟨hshape, ?_, ?_⟩
  · rw [hshape, countOcc_blockAll (by decide) (by decide)
      (by rcases hsep with rfl | rfl <;> decide) P S2 f.fileUpload f.geolocation,
      internet_in_blockAll]
    omega
  · rw [hshape, countOcc_blockAll (by decide) (by decide)
      (by rcases hsep with rfl | rfl <;> decide) P S2 f.fileUpload f.geolocation,
      networkState_in_blockAll]
    omega

/-- C10 (witness): the baseline-permission theorem applied to the
modelled manifest with every optional feature flag disabled. -/
theorem C10_manifest_baseline_permissions_witness :
    updateAndroidManifest (manifestSubject manifestA manifestV manifestB)
        (str "com.acme.demo") ⟨false, false, false, false, false, false, false, false⟩
      = manifestP ++ blockAll false false ++ ' ' :: manifestS2
    ∧ countOcc permInternet
        (updateAndroidManifest (manifestSubject manifestA manifestV manifestB)
          (str "com.acme.demo") ⟨false, false, false, false, false, false, false, false⟩) = 1
    ∧ countOcc permNetworkState
        (updateAndroidManifest (manifestSubject manifestA manifestV manifestB)
          (str "com.acme.demo") ⟨false, false, false, false, false, false, false, false⟩) = 1 := by
  obtain ⟨hs, hin, hns⟩ := C10_manifest_baseline_permissions manifestA manifestV manifestB
    manifestP manifestS2 (str "com.acme.demo") ' '
    ⟨false, false, false, false, false, false, false, false⟩
    (by decide) (by decide) (by decide) (by decide) (Or.inl rfl)
  refine ⟨hs, ?_, ?_⟩
  · rw [hin]; decide
  · rw [hns]; decide

/-! ## Claim C7 -/

/-- Modelled from the spec: the template `strings.xml` of the Android
template project (the template resource tree is not among the provided
sources); the display-name patch targets its `app_name` resource. -/
def stringsXmlTemplate : Str :=
  str "<?xml version=\"1.0\" encoding=\"utf-8\"?>\n<resources>\n    <string name=\"app_name\">Web2APK Template</string>\n</resources>\n"

/-- C7 (counterexample): for the app name `$&` the display-name patch
does not produce the XML-escaped app name as the resource value:
escaping yields `$&amp;`, whose leading `$&` the JS replacement-pattern
expansion then substitutes with the whole matched resource line,
splicing the old line into the new value. -/
theorem C7_counterexample :
    updateStringsXml stringsXmlTemplate (str "$&")
      ≠ str "<?xml version=\"1.0\" encoding=\"utf-8\"?>\n<resources>\n    <string name=\"app_name\">"
          ++ escapeXml (str "$&") ++ str "</string>\n</resources>\n"
    ∧ updateStringsXml stringsXmlTemplate (str "$&")
      = str "<?xml version=\"1.0\" encoding=\"utf-8\"?>\n<resources>\n    <string name=\"app_name\"><string name=\"app_name\">Web2APK Template</string>amp;</string>\n</resources>\n" := by
  constructor
  · decide
  · decide

/-- C7 (amended): `escapeXml` is exactly the single-pass map that escapes
each occurrence of the five characters to its entity and leaves every
other character alone — so nothing is escaped twice; and for every app
name free of the JS replacement-escape character `$`, the display-name
patch replaces the resource value by the escaped app name. -/
theorem C7_escape_single_pass_and_patch :
    (∀ s, escapeXml s = mapConcat xmlEscapeChar s)
    ∧ (∀ (file appName pre rest old tl : Str),
        splitFirst (str "<string name=\"app_name\">") file = some (pre, rest) →
        splitLast (str "</string>") (rest.takeWhile (fun x => decide (x ≠ '\n')))
          = some (old, tl) →
        '$' ∉ appName →
        updateStringsXml file appName
          = pre ++ (str "<string name=\"app_name\">" ++ escapeXml appName ++ str "</string>")
              ++ (tl ++ rest.dropWhile (fun x => decide (x ≠ '\n')))) := by
  refine ⟨escapeXml_eq_mapConcat, ?_⟩
  intro file appName pre rest old tl h1 h2 hname
  have hd : '$' ∉ str "<string name=\"app_name\">" ++ escapeXml appName ++ str "</string>" := by
    intro hm
    rcases List.mem_append.mp hm with hm | hm
    · rcases List.mem_append.mp hm with hm | hm
      · revert hm; decide
      · exact no_dollar_escapeXml hname hm
    · revert hm; decide
  exact replaceSpanGreedy_of_found (findSpan_of_splits (by decide) h1 h2) hd

/-- C7 (witness): the patch theorem applied to the modelled template and
the app name `A&B<C>"D'E`, whose five special characters are each escaped
once. -/
theorem C7_escape_single_pass_and_patch_witness :
    escapeXml (str "A&B<C>\"D" ++ aposChar :: str "E")
      = mapConcat xmlEscapeChar (str "A&B<C>\"D" ++ aposChar :: str "E")
    ∧ updateStringsXml stringsXmlTemplate (str "A&B<C>\"D" ++ aposChar :: str "E")
      = str "<?xml version=\"1.0\" encoding=\"utf-8\"?>\n<resources>\n    "
          ++ (str "<string name=\"app_name\">"
              ++ escapeXml (str "A&B<C>\"D" ++ aposChar :: str "E") ++ str "</string>")
          ++ (str "" ++ str "\n</resources>\n") := by
  constructor
  · exact C7_escape_single_pass_and_patch.1 _
  · exact C7_escape_single_pass_and_patch.2 stringsXmlTemplate
      (str "A&B<C>\"D" ++ aposChar :: str "E")
      (str "<?xml version=\"1.0\" encoding=\"utf-8\"?>\n<resources>\n    ")
      (str "Web2APK Template</string>\n</resources>\n")
      (str "Web2APK Template") (str "") (by decide) (by decide) (by decide)

end Web2APK
